import Mathlib

/-!
Verification of the content-normalization pipeline of the readwise-mcp-enhanced
repository: the HTML extractor, the word segmenter and the content windower
(`extractTextFromHtml`, `segmentMergedWords`, `processContentWithOptions`,
`convertWithJina`, `convertUrlToText`).

Strings are modelled as lists of characters (`Str`); the length of a string is
the number of characters, matching JavaScript's length on the BMP inputs the
pipeline handles.  Regular-expression operations of the source are translated
into explicit character-list scans with the same match semantics.  External
collaborators (the network fetch, the HTML parser library and the segmentation
dictionary) are parameters of the functions that use them.
-/

/-- Strings of the JavaScript source, modelled as lists of characters. -/
abbrev Str := List Char

/-- Characters matched by the JavaScript regular-expression class backslash-s,
which is also the set trimmed by trim(). -/
def jsWhitespaceB (c : Char) : Bool :=
  c = ' ' || c = '\t' || c = '\n' || c.toNat = 11 || c.toNat = 12 || c = '\r' ||
  c.toNat = 0xa0 || c.toNat = 0x1680 || (0x2000 ≤ c.toNat && c.toNat ≤ 0x200a) ||
  c.toNat = 0x2028 || c.toNat = 0x2029 || c.toNat = 0x202f || c.toNat = 0x205f ||
  c.toNat = 0x3000 || c.toNat = 0xfeff

/-- JavaScript trim(): remove leading and trailing whitespace. -/
def jsTrim (s : Str) : Str :=
  ((s.dropWhile jsWhitespaceB).reverse.dropWhile jsWhitespaceB).reverse

/-- JavaScript toLowerCase() restricted to the ASCII letters the pipeline
filters on. -/
def jsToLower (s : Str) : Str := s.map Char.toLower

/-- Boolean substring test: `infixOfB sub hay` is true when `sub` occurs
contiguously inside `hay`; this is JavaScript's hay.includes(sub). -/
def infixOfB (sub : Str) : Str → Bool
  | [] => sub.isEmpty
  | c :: rest => sub.isPrefixOf (c :: rest) || infixOfB sub rest

/-- Generic splitter mirroring JavaScript String.split with a regular
expression: scan left to right, `mAt` reports the length of a match starting at
 the current position; matches separate the segments and are dropped. -/
def splitByAux (mAt : Str → Option Nat) : Nat → Str → Str → List Str
  | 0, acc, rest => [acc.reverse ++ rest]
  | _ + 1, acc, [] => [acc.reverse]
  | fuel + 1, acc, c :: rest =>
    match mAt (c :: rest) with
    | some n =>
      if n = 0 then splitByAux mAt fuel (c :: acc) rest
      else acc.reverse :: splitByAux mAt fuel [] ((c :: rest).drop n)
    | none => splitByAux mAt fuel (c :: acc) rest

/-- Split a string on every match of the matcher. -/
def splitBy (mAt : Str → Option Nat) (s : Str) : List Str :=
  splitByAux mAt (s.length + 1) [] s

/-- Matcher for the blank-line separator regular expression (a newline, then
greedily as much whitespace as possible, then a newline); returns the length of
the leftmost-greedy match when one starts at the head of the input. -/
def matchBlankSep : Str → Option Nat
  | '\n' :: rest =>
    let run := rest.takeWhile jsWhitespaceB
    match run.reverse.findIdx? (· = '\n') with
    | some j => some (run.length - 1 - j + 2)
    | none => none
  | _ => none

/-- Matcher for the sentence separator regular expression (a period followed by
one or more whitespace characters). -/
def matchDotWs : Str → Option Nat
  | '.' :: rest =>
    let run := rest.takeWhile jsWhitespaceB
    if run.isEmpty then none else some (1 + run.length)
  | _ => none

/-- content.split on blank-line separators. -/
def splitBlank (content : Str) : List Str := splitBy matchBlankSep content

/-- content.split on sentence separators. -/
def splitDots (content : Str) : List Str := splitBy matchDotWs content

/-- Sliding-window chunking: windows of 800 characters advancing by 700
(overlap 100), each trimmed, empty windows discarded. -/
def slidingAux : Nat → Str → List Str
  | 0, _ => []
  | _, [] => []
  | fuel + 1, l =>
    let chunk := jsTrim (l.take 800)
    let rest := slidingAux fuel (l.drop 700)
    if chunk = [] then rest else chunk :: rest

/-- The sliding-window strategy over the original content. -/
def slidingChunks (content : Str) : List Str := slidingAux (content.length + 1) content

/-- The three-tier segmentation strategy of processContentWithOptions:
paragraph split; if that yields a single segment longer than 2000, sentence
split with a period re-appended to each trimmed piece; if any sentence still
exceeds 1500, the sliding window over the original content. -/
def chooseParagraphs (content : Str) : List Str :=
  match splitBlank content with
  | [p] =>
    if 2000 < p.length then
      let sentences := (splitDots content).map (fun s => jsTrim s ++ ".".data)
      if sentences.any (fun s => 1500 < s.length) then slidingChunks content
      else sentences
    else [p]
  | ps => ps

/-- A paragraph matches when it contains some keyword case-insensitively. -/
def hasKeywordB (keywords : List Str) (paragraph : Str) : Bool :=
  keywords.any (fun k => infixOfB (jsToLower k) (jsToLower paragraph))

/-- The context chunk built for a keyword match at index `i`: the slice of
paragraphs from `i - 2` to `i + 2` (clamped), joined with a period and a space,
then trimmed. -/
def contextChunkAt (all : List Str) (i : Nat) : Str :=
  let contextStart := i - 2
  let contextEnd := min all.length (i + 3)
  jsTrim (List.intercalate ". ".data ((all.drop contextStart).take (contextEnd - contextStart)))

/-- One iteration of the section-building loop of processContentWithOptions:
if paragraph `i` matches a keyword, its context chunk is appended unless the
trimmed paragraph overlaps (in either substring direction) an already-accepted
section. -/
def sectionStep (keywords all : List Str) (acc : List Str) (i : Nat) : List Str :=
  let paragraph := all.getD i []
  if hasKeywordB keywords paragraph then
    if acc.any (fun existing =>
        infixOfB (jsTrim paragraph) existing || infixOfB existing (jsTrim paragraph)) then
      acc
    else acc ++ [contextChunkAt all i]
  else acc

/-- The accepted sections after scanning the first `i` paragraphs. -/
def sectionsUpTo (keywords all : List Str) (i : Nat) : List Str :=
  (List.range i).foldl (sectionStep keywords all) []

/-- All accepted sections of the keyword-filtering loop. -/
def buildSections (keywords all : List Str) : List Str :=
  sectionsUpTo keywords all all.length

/-- The budget-allocation walk over the accepted sections: `n` is the number of
chunks already accepted, `t` the budget already used (totalUsed). -/
def budgetLoop (avg maxLen : Nat) : List Str → Nat → Nat → List Str
  | [], _, _ => []
  | s :: rest, n, t =>
    if t < maxLen ∧ n < 10 then
      let remaining := maxLen - t
      let chunkSize := max 200 (min avg remaining)
      if s.length ≤ chunkSize then
        s :: budgetLoop avg maxLen rest (n + 1) (t + s.length + 4)
      else if 200 ≤ remaining then
        (s.take (chunkSize - 3) ++ "...".data) :: budgetLoop avg maxLen rest (n + 1) (t + chunkSize + 4)
      else []
    else []

/-- The windower's configuration record. -/
structure WindowOptions where
  maxLength : Option Nat
  startOffset : Option Nat
  filterKeywords : Option (List Str)
deriving DecidableEq

/-- The diagnostic record attached to the result when keywords were supplied. -/
structure DebugInfo where
  keywordCount : Nat
  originalLength : Nat
  paragraphCount : Nat
  keywordFilteringApplied : Bool
  finalLength : Nat
deriving DecidableEq

/-- The windower's result record. -/
structure WindowResult where
  content : Str
  truncated : Bool
  totalLength : Nat
  extractedSections : Option (List Str)
  debug : Option DebugInfo
deriving DecidableEq

/-- The effective maximum length: a missing or zero (falsy) maxLength defaults
to 50000. -/
def effMaxLength (o : WindowOptions) : Nat :=
  match o.maxLength with
  | none => 50000
  | some n => if n = 0 then 50000 else n

/-- Sentinel content when no paragraph matches the keywords. -/
def noMatchSentinel : Str := "[No content found matching the specified keywords]".data

/-- Separator joined between accepted chunks. -/
def chunkSep : Str := "\n\n--- \n\n".data

/-- The keyword-filtering stage: returns the processed content, the optional
extractedSections value and the keywordFilteringApplied flag. -/
def keywordFilterStage (content : Str) (keywords : List Str) (maxLen : Nat) :
    Str × Option (List Str) × Bool :=
  let paragraphs := chooseParagraphs content
  let sections := buildSections keywords paragraphs
  if sections = [] then (noMatchSentinel, none, false)
  else
    let avg := maxLen / min sections.length 10
    (List.intercalate chunkSep (budgetLoop avg maxLen sections 0 0), some sections, true)

/-- The content windower processContentWithOptions: empty-after-trim shortcut,
optional keyword filtering, then offset slicing and (when keyword filtering was
not applied) maximum-length truncation. -/
def processContentWithOptions (content : Str) (options : WindowOptions) : WindowResult :=
  if jsTrim content = [] then ⟨[], false, 0, none, none⟩
  else
    let stage1 : Str × Option (List Str) × Bool :=
      match options.filterKeywords with
      | some keywords =>
        if keywords ≠ [] then keywordFilterStage content keywords (effMaxLength options)
        else (content, none, false)
      | none => (content, none, false)
    let startOffset := options.startOffset.getD 0
    let afterOffset : Str × Bool :=
      if 0 < startOffset ∧ startOffset < stage1.1.length then (stage1.1.drop startOffset, true)
      else (stage1.1, false)
    let afterMax : Str × Bool :=
      if stage1.2.2 = false then
        if effMaxLength options < afterOffset.1.length then
          (afterOffset.1.take (effMaxLength options), true)
        else afterOffset
      else afterOffset
    let debugInfo : Option DebugInfo :=
      match options.filterKeywords with
      | some keywords =>
        some ⟨keywords.length, content.length, (splitBlank content).length, stage1.2.2, afterMax.1.length⟩
      | none => none
    ⟨afterMax.1, afterMax.2, content.length, stage1.2.1, debugInfo⟩

/-- Matcher for a run of one or more whitespace characters. -/
def matchWsRun : Str → Option Nat
  | [] => none
  | c :: rest =>
    if jsWhitespaceB c then some (1 + (rest.takeWhile jsWhitespaceB).length) else none

/-- text.split on runs of whitespace. -/
def jsSplitWs (text : Str) : List Str := splitBy matchWsRun text

/-- The per-token test of segmentMergedWords: longer than 12 characters and
made entirely of ASCII letters. -/
def isMergedCandidate (word : Str) : Bool :=
  12 < word.length && !word.isEmpty &&
    word.all (fun c => ('a' ≤ c && c ≤ 'z') || ('A' ≤ c && c ≤ 'Z'))

/-- The per-token step of segmentMergedWords: candidate tokens are handed
(lower-cased) to the dictionary splitter; a result of at least two sub-words is
joined with spaces, any other result or a splitter error keeps the original
token. -/
def processWord {Dict : Type} (ninja : Dict)
    (splitSentence : Dict → Str → Except Unit (List Str)) (word : Str) : Str :=
  if isMergedCandidate word then
    match splitSentence ninja (jsToLower word) with
    | Except.ok segmented =>
      if 1 < segmented.length then List.intercalate " ".data segmented else word
    | Except.error _ => word
  else word

/-- segmentMergedWords: inputs shorter than 10 characters are returned as is;
a dictionary-load failure returns the input unmodified; otherwise each
whitespace-separated token is processed and the tokens are re-joined with
single spaces. -/
def segmentMergedWords {Dict : Type} (loadDict : Except Unit Dict)
    (splitSentence : Dict → Str → Except Unit (List Str)) (text : Str) : Str :=
  if text.length < 10 then text
  else
    match loadDict with
    | Except.error _ => text
    | Except.ok ninja =>
      List.intercalate " ".data ((jsSplitWs text).map (processWord ninja splitSentence))

/-- A response of the external fetch collaborator. -/
structure FetchResponse where
  ok : Bool
  body : Str

/-- convertWithJina: fetch the conversion proxy; a rejected fetch or a non-ok
status is a hard failure. -/
def convertWithJina (fetchFn : Str → Except Unit FetchResponse) (url : Str) :
    Except Unit Str :=
  match fetchFn ("https://r.jina.ai/".data ++ url) with
  | Except.error _ => Except.error ()
  | Except.ok r => if r.ok then Except.ok r.body else Except.error ()

/-- A DOM-like tree as produced by the external HTML parser collaborator. -/
inductive HtmlNode where
  | text (s : Str)
  | elem (tag : Str) (children : List HtmlNode)

/-- Tags removed before text extraction. -/
def bannedTag (t : Str) : Bool :=
  t == "script".data || t == "style".data || t == "nav".data ||
  t == "header".data || t == "footer".data

/-- Removal of every element (with its whole subtree) whose tag is banned,
at any depth: the effect of querySelectorAll over the five tags followed by
remove() on each match. -/
def pruneList : List HtmlNode → List HtmlNode
  | [] => []
  | HtmlNode.text s :: rest => HtmlNode.text s :: pruneList rest
  | HtmlNode.elem tag children :: rest =>
    if bannedTag tag then pruneList rest
    else HtmlNode.elem tag (pruneList children) :: pruneList rest

/-- Concatenated text of a node list, in document order. -/
def textListOf : List HtmlNode → Str
  | [] => []
  | HtmlNode.text s :: rest => s ++ textListOf rest
  | HtmlNode.elem _ children :: rest => textListOf children ++ textListOf rest

/-- Text of one node. -/
def textOf : HtmlNode → Str
  | HtmlNode.text s => s
  | HtmlNode.elem _ children => textListOf children

/-- First element with the given tag, in depth-first document order: the
querySelector of the parser collaborator. -/
def findFirstList (tag : Str) : List HtmlNode → Option HtmlNode
  | [] => none
  | HtmlNode.text _ :: rest => findFirstList tag rest
  | HtmlNode.elem t children :: rest =>
    if t == tag then some (HtmlNode.elem t children)
    else
      match findFirstList tag children with
      | some r => some r
      | none => findFirstList tag rest

/-- Replacement of a carriage-return/newline pair by a newline, scanning left
to right without overlap. -/
def replCRLF : Str → Str
  | [] => []
  | '\r' :: '\n' :: rest => '\n' :: replCRLF rest
  | c :: rest => c :: replCRLF rest

/-- Replacement of every remaining carriage return by a newline. -/
def replCR (s : Str) : Str := s.map (fun c => if c = '\r' then '\n' else c)

/-- Collapse every run of characters satisfying `p` into a single space,
scanning left to right. -/
def collapseRunsAux (p : Char → Bool) : Bool → Str → Str
  | _, [] => []
  | prevInRun, c :: rest =>
    if p c then
      if prevInRun then collapseRunsAux p true rest
      else ' ' :: collapseRunsAux p true rest
    else c :: collapseRunsAux p false rest

/-- Collapse newline runs to a single space. -/
def collapseNewlines (s : Str) : Str := collapseRunsAux (fun c => c = '\n') false s

/-- Collapse whitespace runs to a single space. -/
def collapseWsRuns (s : Str) : Str := collapseRunsAux jsWhitespaceB false s

/-- Word character of the regular-expression class backslash-w. -/
def isWordCharB (c : Char) : Bool :=
  ('a' ≤ c && c ≤ 'z') || ('A' ≤ c && c ≤ 'Z') || ('0' ≤ c && c ≤ '9') || c = '_'

/-- ASCII upper-case letter. -/
def isUpperB (c : Char) : Bool := 'A' ≤ c && c ≤ 'Z'

/-- Insert a space between a word character and an immediately following
upper-case letter, resuming the scan after each match as the global regular
expression replacement does. -/
def insertCapSpaces : Str → Str
  | [] => []
  | [c] => [c]
  | a :: b :: rest =>
    if isWordCharB a && isUpperB b then a :: ' ' :: b :: insertCapSpaces rest
    else a :: insertCapSpaces (b :: rest)

/-- The whitespace clean-up chain applied to the body text. -/
def cleanBodyText (bodyText : Str) : Str :=
  jsTrim (insertCapSpaces (collapseWsRuns (collapseNewlines (replCR (replCRLF bodyText)))))

/-- Text extraction over an already-parsed root: prune the banned elements,
take the title and body texts, clean the body, and prepend the title when it
is non-empty. -/
def extractCore (root : List HtmlNode) : Str :=
  let pruned := pruneList root
  let title :=
    match findFirstList "title".data pruned with
    | some n => jsTrim (textOf n)
    | none => []
  let fromBody :=
    match findFirstList "body".data pruned with
    | some b => textOf b
    | none => []
  let bodyText := if fromBody = [] then textListOf pruned else fromBody
  let cleanText := cleanBodyText bodyText
  if title = [] then cleanText else title ++ "\n\n".data ++ cleanText

/-- extractTextFromHtml: empty or whitespace-only input yields the empty
string; otherwise the parsed tree is pruned and its text extracted. -/
def extractTextFromHtml (parse : Str → List HtmlNode) (htmlContent : Str) : Str :=
  if jsTrim htmlContent = [] then []
  else extractCore (parse htmlContent)

/-- Replace the contents of every banned element by nothing while keeping the
element itself: used to state that those contents never reach the output. -/
def stripBannedList : List HtmlNode → List HtmlNode
  | [] => []
  | HtmlNode.text s :: rest => HtmlNode.text s :: stripBannedList rest
  | HtmlNode.elem tag children :: rest =>
    if bannedTag tag then HtmlNode.elem tag [] :: stripBannedList rest
    else HtmlNode.elem tag (stripBannedList children) :: stripBannedList rest

/-- No element with a banned tag occurs anywhere in the node list. -/
def noBannedList : List HtmlNode → Bool
  | [] => true
  | HtmlNode.text _ :: rest => noBannedList rest
  | HtmlNode.elem t children :: rest =>
    !bannedTag t && noBannedList children && noBannedList rest

/-- Sentinel returned by convertUrlToText on any conversion failure. -/
def conversionErrorSentinel : Str := "[Content unavailable - conversion error]".data

/-- Selection policy of convertUrlToText: the remote converter is used for a
missing category, an empty (falsy) category, articles and PDFs. -/
def shouldUseJinaFor (category : Option Str) : Bool :=
  match category with
  | none => true
  | some c => c.isEmpty || c == "article".data || c == "pdf".data

/-- convertUrlToText: empty or whitespace-only URL yields the empty string;
otherwise the selected conversion path runs and any failure in it is caught
and replaced by the fixed sentinel string. -/
def convertUrlToText (fetchFn : Str → Except Unit FetchResponse)
    (parse : Str → List HtmlNode) (url : Str) (category : Option Str) : Str :=
  if jsTrim url = [] then []
  else
    let attempt : Except Unit Str :=
      if shouldUseJinaFor category then convertWithJina fetchFn url
      else
        match fetchFn url with
        | Except.error _ => Except.error ()
        | Except.ok r =>
          if r.ok then Except.ok (extractTextFromHtml parse r.body)
          else Except.error ()
    match attempt with
    | Except.ok s => s
    | Except.error _ => conversionErrorSentinel

/-- The boolean substring test agrees with the infix relation on lists. -/
theorem infixOfB_iff (sub : Str) : (hay : Str) → (infixOfB sub hay = true ↔ sub <:+: hay)
  | [] => by simp [infixOfB, List.isEmpty_iff]
  | c :: rest => by
    rw [infixOfB]
    simp [List.infix_cons_iff, infixOfB_iff sub rest, List.isPrefixOf_iff_prefix]

/-- C10: a content string whose trimmed form is empty takes the early-return
shortcut: the result is exactly the empty content with truncated false and
totalLength zero, with no extractedSections and no debug record, whatever the
configuration. -/
theorem processContent_trimEmpty (content : Str) (options : WindowOptions)
    (h : jsTrim content = []) :
    processContentWithOptions content options = ⟨[], false, 0, none, none⟩ := by
  rw [processContentWithOptions, if_pos h]

/-- Witness for C10 at a whitespace-only input with every option supplied. -/
theorem processContent_trimEmpty_witness :
    jsTrim "   ".data = [] ∧
    processContentWithOptions "   ".data ⟨some 5, some 2, some ["foo".data]⟩ =
      ⟨[], false, 0, none, none⟩ :=
  ⟨by decide, processContent_trimEmpty "   ".data ⟨some 5, some 2, some ["foo".data]⟩ (by decide)⟩

/-- C1 (amended): whenever the trimmed content is non-empty, the totalLength
field of the result equals the length of the input content, for every
configuration. -/
theorem processContent_totalLength (content : Str) (options : WindowOptions)
    (h : jsTrim content ≠ []) :
    (processContentWithOptions content options).totalLength = content.length := by
  rw [processContentWithOptions, if_neg h]

/-- Witness for the amended C1 with keyword filtering, offset and truncation
all engaged. -/
theorem processContent_totalLength_witness :
    jsTrim "ab".data ≠ [] ∧
    (processContentWithOptions "ab".data ⟨some 1, some 1, some ["a".data]⟩).totalLength =
      "ab".data.length :=
  ⟨by decide, processContent_totalLength "ab".data ⟨some 1, some 1, some ["a".data]⟩ (by decide)⟩

/-- Counterexample to C1 as stated: on the whitespace-only input consisting of
one space, totalLength is 0, not the input length 1. -/
theorem processContent_totalLength_cex :
    (processContentWithOptions " ".data ⟨none, none, none⟩).totalLength ≠ (" ".data).length := by
  decide

/-- C9: the windower is deterministic; two calls on identical content and
configuration return equal results in every field. -/
theorem processContent_deterministic (c₁ c₂ : Str) (o₁ o₂ : WindowOptions)
    (hc : c₁ = c₂) (ho : o₁ = o₂) :
    processContentWithOptions c₁ o₁ = processContentWithOptions c₂ o₂ := by
  subst hc; subst ho; rfl

/-- Witness for C9 at a concrete input. -/
theorem processContent_deterministic_witness :
    processContentWithOptions "ab cd".data ⟨some 3, none, some ["cd".data]⟩ =
      processContentWithOptions "ab cd".data ⟨some 3, none, some ["cd".data]⟩ :=
  processContent_deterministic _ _ _ _ rfl rfl

/-- C4 (amended): with no keywords, no offset, and a trimmed-non-empty content
that fits within maxLength, the result is the content unchanged, truncated
false and totalLength the content length. -/
theorem processContent_noKeywords_fits (content : Str) (m : Nat)
    (h : jsTrim content ≠ []) (hlen : content.length ≤ m) :
    processContentWithOptions content ⟨some m, none, none⟩ =
      ⟨content, false, content.length, none, none⟩ := by
  have hne : content ≠ [] := by
    intro hc; exact h (by simp [hc, jsTrim])
  have hm0 : m ≠ 0 := by
    intro h0; subst h0
    exact hne (List.length_eq_zero.mp (Nat.le_zero.mp hlen))
  have heff : effMaxLength ⟨some m, none, none⟩ = m := by
    simp [effMaxLength, hm0]
  rw [processContentWithOptions, if_neg h]
  simp [heff, Option.getD, Nat.not_lt.mpr hlen]

/-- Witness for the amended C4. -/
theorem processContent_noKeywords_fits_witness :
    jsTrim "abc".data ≠ [] ∧ "abc".data.length ≤ 5 ∧
    processContentWithOptions "abc".data ⟨some 5, none, none⟩ =
      ⟨"abc".data, false, "abc".data.length, none, none⟩ :=
  ⟨by decide, by decide,
    processContent_noKeywords_fits "abc".data 5 (by decide) (by decide)⟩

/-- Counterexample to C4 as stated: the whitespace-only input of one space has
length 1, below maxLength 10, yet is not returned unchanged and totalLength is
0, not 1. -/
theorem processContent_noKeywords_fits_cex :
    (" ".data).length ≤ 10 ∧
    (processContentWithOptions " ".data ⟨some 10, none, none⟩).content ≠ " ".data ∧
    (processContentWithOptions " ".data ⟨some 10, none, none⟩).totalLength ≠ (" ".data).length := by
  decide

/-- C5 (amended): with no keywords, no offset, a trimmed-non-empty content and
0 < N < content length, maxLength N truncates the content to exactly N
characters and sets truncated. -/
theorem processContent_noKeywords_truncates (content : Str) (N : Nat)
    (h : jsTrim content ≠ []) (h0 : 0 < N) (hN : N < content.length) :
    (processContentWithOptions content ⟨some N, none, none⟩).content = content.take N ∧
    (processContentWithOptions content ⟨some N, none, none⟩).content.length = N ∧
    (processContentWithOptions content ⟨some N, none, none⟩).truncated = true := by
  have hm0 : N ≠ 0 := Nat.pos_iff_ne_zero.mp h0
  have heff : effMaxLength ⟨some N, none, none⟩ = N := by
    simp [effMaxLength, hm0]
  have hres : processContentWithOptions content ⟨some N, none, none⟩ =
      ⟨content.take N, true, content.length, none, none⟩ := by
    rw [processContentWithOptions, if_neg h]
    simp [heff, Option.getD, hN]
  rw [hres]
  refine ⟨rfl, ?_, rfl⟩
  simp [List.length_take, Nat.min_eq_left (Nat.le_of_lt hN)]

/-- Witness for the amended C5. -/
theorem processContent_noKeywords_truncates_witness :
    jsTrim "abcd".data ≠ [] ∧ 0 < 2 ∧ 2 < "abcd".data.length ∧
    ((processContentWithOptions "abcd".data ⟨some 2, none, none⟩).content = "abcd".data.take 2 ∧
     (processContentWithOptions "abcd".data ⟨some 2, none, none⟩).content.length = 2 ∧
     (processContentWithOptions "abcd".data ⟨some 2, none, none⟩).truncated = true) :=
  ⟨by decide, by decide, by decide,
    processContent_noKeywords_truncates "abcd".data 2 (by decide) (by decide) (by decide)⟩

/-- Counterexample to C5 as stated: for the two-space input and N = 1 (so
0 < N < content length), the result content has length 0, not 1, and truncated
is false. -/
theorem processContent_noKeywords_truncates_cex :
    (0 < 1 ∧ 1 < ("  ".data).length) ∧
    ¬ ((processContentWithOptions "  ".data ⟨some 1, none, none⟩).content.length = 1 ∧
       (processContentWithOptions "  ".data ⟨some 1, none, none⟩).truncated = true) := by
  decide

/-- C2 (amended): one step of the section-building loop.  When paragraph `i`
matches a keyword, its context chunk is appended to the accepted sections
unless the trimmed matched paragraph is a substring of an already-accepted
section or an already-accepted section is a substring of the trimmed matched
paragraph; the duplicate test is on the matched paragraph, not on the new
context chunk. -/
theorem sectionsUpTo_step (keywords all : List Str) (i : Nat) :
    sectionsUpTo keywords all (i + 1) =
      if hasKeywordB keywords (all.getD i []) = true then
        if ∃ existing, existing ∈ sectionsUpTo keywords all i ∧
            (jsTrim (all.getD i []) <:+: existing ∨ existing <:+: jsTrim (all.getD i [])) then
          sectionsUpTo keywords all i
        else sectionsUpTo keywords all i ++ [contextChunkAt all i]
      else sectionsUpTo keywords all i := by
  conv_lhs => rw [sectionsUpTo, List.range_succ, List.foldl_append]
  rw [← sectionsUpTo]
  show sectionStep keywords all (sectionsUpTo keywords all i) i = _
  rw [sectionStep]
  simp only [List.any_eq_true, Bool.or_eq_true, infixOfB_iff]

/-- Six short paragraphs; the first and last both contain the keyword, and the
last paragraph's text occurs inside the first accepted context chunk while the
two context chunks themselves are unrelated as substrings. -/
def contentC2 : Str := "foo a\n\nb\n\nc\n\nd\n\ne\n\nfoo a".data

/-- Counterexample to C2 as stated: paragraph 5 of contentC2 matches the
keyword and its freshly built context chunk is neither a substring of the only
already-accepted chunk nor contains it, yet the chunk is discarded: the
result's extractedSections holds only the first chunk.  The dedup test is on
the matched paragraph, not on the context chunk. -/
theorem sectionsUpTo_step_cex :
    (processContentWithOptions contentC2 ⟨none, none, some ["foo".data]⟩).extractedSections =
      some ["foo a. b. c".data] ∧
    hasKeywordB ["foo".data] ((chooseParagraphs contentC2).getD 5 []) = true ∧
    contextChunkAt (chooseParagraphs contentC2) 5 = "d. e. foo a".data ∧
    infixOfB "d. e. foo a".data "foo a. b. c".data = false ∧
    infixOfB "foo a. b. c".data "d. e. foo a".data = false := by
  decide

/-- The budget walk never emits more chunks than the room left under the
ten-chunk ceiling. -/
theorem budgetLoop_len (avg maxLen : Nat) (sections : List Str) :
    ∀ n t : Nat, (budgetLoop avg maxLen sections n t).length ≤ 10 - n := by
  induction sections with
  | nil => intro n t; simp [budgetLoop]
  | cons s rest ih =>
    intro n t
    rw [budgetLoop]
    split
    next hc =>
      dsimp only
      split
      next =>
        have h1 := ih (n + 1) (t + s.length + 4)
        simp only [List.length_cons]
        omega
      next =>
        split
        next =>
          have h1 := ih (n + 1) (t + max 200 (min avg (maxLen - t)) + 4)
          simp only [List.length_cons]
          omega
        next => simp
    next => simp

/-- C3 (amended): the budget walk of the keyword-filtered branch.  With
chunkSize = max(200, min(avgChunkSize, remainingSpace)), a chunk is taken
whole exactly when its length is at most chunkSize; otherwise, when
remainingSpace is at least 200, it is cut to chunkSize characters ending in an
ellipsis; otherwise the walk stops and the remaining chunks are dropped.  The
walk also stops once the used budget reaches maxLength or ten chunks are
accepted, and never yields more than ten chunks. -/
theorem budgetLoop_spec (avg maxLen : Nat) (s : Str) (rest sections : List Str) (n t : Nat) :
    (budgetLoop avg maxLen (s :: rest) n t =
      if t < maxLen ∧ n < 10 then
        if s.length ≤ max 200 (min avg (maxLen - t)) then
          s :: budgetLoop avg maxLen rest (n + 1) (t + s.length + 4)
        else if 200 ≤ maxLen - t then
          (s.take (max 200 (min avg (maxLen - t)) - 3) ++ "...".data) ::
            budgetLoop avg maxLen rest (n + 1) (t + max 200 (min avg (maxLen - t)) + 4)
        else []
      else []) ∧
    (budgetLoop avg maxLen sections 0 0).length ≤ 10 :=
  ⟨rfl, budgetLoop_len avg maxLen sections 0 0⟩

/-- A single 150-character section containing the keyword, with maxLength 100:
avgChunkSize and remainingSpace are both 100. -/
def contentC3 : Str := "foo ".data ++ List.replicate 146 'a'

set_option maxRecDepth 40000 in
/-- Counterexample to C3 as stated: the sole context chunk of contentC3 has
length 150, which does not fit within min(avgChunkSize, remainingSpace) = 100,
and remainingSpace = 100 is below the 200 minimum, so under the claim the walk
would stop and the chunk would be dropped; the code instead includes the chunk
whole (chunkSize is clamped up to 200), returning the full 150-character
content untruncated. -/
theorem budgetLoop_spec_cex :
    contentC3.length = 150 ∧
    buildSections ["foo".data] (chooseParagraphs contentC3) = [contentC3] ∧
    ¬ (contentC3.length ≤ min (100 / min 1 10) (100 - 0)) ∧
    ¬ (200 ≤ 100 - 0) ∧
    (processContentWithOptions contentC3 ⟨some 100, none, some ["foo".data]⟩).content = contentC3 ∧
    (processContentWithOptions contentC3 ⟨some 100, none, some ["foo".data]⟩).truncated = false := by
  decide

/-- C6: segmentMergedWords recovers from every failure.  A dictionary-load
failure returns the input text unmodified; a per-token splitter error keeps
that token unchanged; and on a successful load the output is exactly the
whitespace-split tokens, each processed independently, re-joined with single
spaces, so the function never propagates an error. -/
theorem segmentMergedWords_recovers {Dict : Type}
    (splitSentence : Dict → Str → Except Unit (List Str)) (text : Str)
    (ninja : Dict) (word : Str)
    (herr : splitSentence ninja (jsToLower word) = Except.error ()) :
    segmentMergedWords (Except.error ()) splitSentence text = text ∧
    processWord ninja splitSentence word = word ∧
    (10 ≤ text.length →
      segmentMergedWords (Except.ok ninja) splitSentence text =
        List.intercalate " ".data ((jsSplitWs text).map (processWord ninja splitSentence))) := by
  refine ⟨?_, ?_, ?_⟩
  · rw [segmentMergedWords]
    split
    · rfl
    · rfl
  · rw [processWord]
    split
    · rw [herr]
    · rfl
  · intro hlen
    rw [segmentMergedWords, if_neg (by omega)]

/-- Witness for C6: a splitter that always fails, a ten-character text and a
thirteen-letter token. -/
theorem segmentMergedWords_recovers_witness :
    (fun (_ : Unit) (_ : Str) => (Except.error () : Except Unit (List Str))) ()
        (jsToLower "abcdefghijklm".data) = Except.error () ∧
    segmentMergedWords (Except.error ())
        (fun (_ : Unit) (_ : Str) => (Except.error () : Except Unit (List Str)))
        "hello there friend".data = "hello there friend".data ∧
    processWord ()
        (fun (_ : Unit) (_ : Str) => (Except.error () : Except Unit (List Str)))
        "abcdefghijklm".data = "abcdefghijklm".data := by
  refine ⟨rfl, ?_, ?_⟩
  · exact (segmentMergedWords_recovers
      (fun (_ : Unit) (_ : Str) => (Except.error () : Except Unit (List Str)))
      "hello there friend".data () "abcdefghijklm".data rfl).1
  · exact (segmentMergedWords_recovers
      (fun (_ : Unit) (_ : Str) => (Except.error () : Except Unit (List Str)))
      "hello there friend".data () "abcdefghijklm".data rfl).2.1

/-- C7: convertUrlToText never propagates a failure of the selected conversion
path.  For a non-blank URL, when the remote-converter path is selected and
fails, or when the raw-fetch path is selected and the fetch rejects or returns
a non-ok response, the result is the fixed sentinel string. -/
theorem convertUrlToText_sentinel (fetchFn : Str → Except Unit FetchResponse)
    (parse : Str → List HtmlNode) (url : Str) (category : Option Str)
    (hurl : jsTrim url ≠ []) :
    (shouldUseJinaFor category = true → convertWithJina fetchFn url = Except.error () →
        convertUrlToText fetchFn parse url category = conversionErrorSentinel) ∧
    (shouldUseJinaFor category = false →
        (fetchFn url = Except.error () ∨ ∃ r, fetchFn url = Except.ok r ∧ r.ok = false) →
        convertUrlToText fetchFn parse url category = conversionErrorSentinel) := by
  constructor
  · intro hsel herr
    rw [convertUrlToText, if_neg hurl]
    simp only [hsel, if_true, herr]
  · intro hsel hfail
    rw [convertUrlToText, if_neg hurl]
    simp only [hsel, Bool.false_eq_true, if_false]
    rcases hfail with herr | ⟨r, hok, hro⟩
    · rw [herr]
    · rw [hok]
      simp [hro]

/-- Witness for C7 on both conversion paths: a rejecting fetch on the
remote-converter path and a non-ok response on the raw-fetch path. -/
theorem convertUrlToText_sentinel_witness :
    jsTrim "http://x".data ≠ [] ∧
    convertUrlToText (fun _ => Except.error ()) (fun _ => []) "http://x".data none =
      conversionErrorSentinel ∧
    convertUrlToText (fun _ => Except.ok ⟨false, []⟩) (fun _ => []) "http://x".data
      (some "tweet".data) = conversionErrorSentinel := by
  refine ⟨by decide, ?_, ?_⟩
  · exact (convertUrlToText_sentinel (fun _ => Except.error ()) (fun _ => [])
      "http://x".data none (by decide)).1 rfl rfl
  · exact (convertUrlToText_sentinel (fun _ => Except.ok ⟨false, []⟩) (fun _ => [])
      "http://x".data (some "tweet".data) (by decide)).2 rfl
      (Or.inr ⟨⟨false, []⟩, rfl, rfl⟩)

/-- Pruning is blind to the contents of banned elements: emptying every banned
element's subtree does not change the pruned tree. -/
theorem pruneList_stripBanned : (l : List HtmlNode) →
    pruneList (stripBannedList l) = pruneList l
  | [] => by simp only [stripBannedList, pruneList]
  | HtmlNode.text s :: rest => by
    simp only [stripBannedList, pruneList, pruneList_stripBanned rest]
  | HtmlNode.elem tag children :: rest => by
    by_cases h : bannedTag tag = true
    · simp only [stripBannedList, pruneList, h, if_true, pruneList_stripBanned rest]
    · simp only [stripBannedList, pruneList, h, if_false, Bool.false_eq_true,
        pruneList_stripBanned rest, pruneList_stripBanned children]

/-- After pruning, no element with a banned tag remains at any depth. -/
theorem noBanned_pruneList : (l : List HtmlNode) → noBannedList (pruneList l) = true
  | [] => by simp only [pruneList, noBannedList]
  | HtmlNode.text s :: rest => by
    simp only [pruneList, noBannedList, noBanned_pruneList rest]
  | HtmlNode.elem tag children :: rest => by
    by_cases h : bannedTag tag = true
    · simp only [pruneList, h, if_true, noBanned_pruneList rest]
    · simp only [pruneList, h, if_false, Bool.false_eq_true, noBannedList,
        noBanned_pruneList rest, noBanned_pruneList children]
      simp [h]

/-- C8: script, style, nav, header and footer elements never contribute to the
extracted text.  Replacing every banned element's entire subtree (hence its
whole text content) by nothing leaves extractTextFromHtml and extractCore
unchanged on every input, and the pruned tree used for extraction contains no
banned element at any depth. -/
theorem extractTextFromHtml_ignores_banned (parse : Str → List HtmlNode)
    (html : Str) (root : List HtmlNode) :
    extractTextFromHtml (fun s => stripBannedList (parse s)) html =
      extractTextFromHtml parse html ∧
    extractCore (stripBannedList root) = extractCore root ∧
    noBannedList (pruneList root) = true := by
  have hcore : ∀ r : List HtmlNode, extractCore (stripBannedList r) = extractCore r := by
    intro r
    simp only [extractCore, pruneList_stripBanned]
  refine ⟨?_, hcore root, noBanned_pruneList root⟩
  rw [extractTextFromHtml, extractTextFromHtml]
  split
  · rfl
  · exact hcore (parse html)
